import Mathlib

/-!
Shallow embedding of the image-studio client (App.tsx, LoadingOverlay,
geminiService) and proofs about its editing pipeline: filter-string
composition, zoom clamping, selection normalization, canvas bake-in,
save-edits state transition, generation orchestration, service response
extraction, image navigation, and the simulated progress bar.

JS numbers are modelled as exact rationals (ℚ) or integers (ℤ);
strings as Lean Strings; nullable values as Option; rejected promises
as Except.
-/

namespace ImagineAI

/-- The filter types offered by the editor (App.tsx filter list). -/
inductive FilterType where
  | None
  | Grayscale
  | Sepia
  | Invert
  | Vintage
  | Cyberpunk
  | Solarize
  | NightVision
  | Dramatic
  | Dreamy
  | Polaroid
deriving DecidableEq, Repr, BEq

/-- The `switch` over the filter in `getFilterString` (App.tsx lines 190-203):
the base CSS filter string, `"none"` in the default case. -/
def baseFilterString : FilterType → String
  | .Grayscale => "grayscale(100%)"
  | .Sepia => "sepia(100%)"
  | .Invert => "invert(100%)"
  | .Vintage => "sepia(50%) contrast(120%) brightness(90%) hue-rotate(-30deg)"
  | .Cyberpunk => "hue-rotate(280deg) saturate(150%) contrast(120%) brightness(110%)"
  | .Solarize => "invert(100%) hue-rotate(180deg)"
  | .NightVision => "sepia(100%) hue-rotate(60deg) saturate(300%) brightness(80%)"
  | .Dramatic => "contrast(150%) saturate(50%)"
  | .Dreamy => "brightness(120%) contrast(80%) blur(1px)"
  | .Polaroid => "sepia(30%) contrast(110%) brightness(105%) saturate(120%)"
  | .None => "none"

/-- `getFilterString` (App.tsx lines 189-211): composes the base filter with
the four numeric adjustments into one CSS filter string. -/
def getFilterString (filter : FilterType) (b c h s : ℤ) : String :=
  let baseFilter := baseFilterString filter
  let brightnessFilter := "brightness(" ++ toString b ++ "%)"
  let contrastFilter := "contrast(" ++ toString c ++ "%)"
  let hueFilter := "hue-rotate(" ++ toString h ++ "deg)"
  let saturateFilter := "saturate(" ++ toString s ++ "%)"
  (if baseFilter = "none" then "" else baseFilter ++ " ") ++
    (brightnessFilter ++ " " ++ contrastFilter ++ " " ++ hueFilter ++ " " ++ saturateFilter)

/-- The four adjustment functions in the order stated by the spec:
brightness, contrast, hue-rotate, saturate, separated by single spaces. -/
def adjustmentsString (b c h s : ℤ) : String :=
  ("brightness(" ++ toString b ++ "%)") ++ " " ++
    ("contrast(" ++ toString c ++ "%)") ++ " " ++
    ("hue-rotate(" ++ toString h ++ "deg)") ++ " " ++
    ("saturate(" ++ toString s ++ "%)")

/-- The spec's description of the composed filter string: the base filter of
`f` followed by a space and the four adjustments, the base part being empty
exactly when `f` is None. -/
def specFilterString (f : FilterType) (b c h s : ℤ) : String :=
  (if f = FilterType.None then "" else baseFilterString f ++ " ") ++ adjustmentsString b c h s

/-- C3: `getFilterString` returns the base filter string of `f` followed, in
this fixed order, by brightness(b%), contrast(c%), hue-rotate(hdeg),
saturate(s%), separated by single spaces; when `f` is None the base part is
empty, so the result consists of exactly the four adjustment functions. -/
theorem getFilterString_eq_spec (f : FilterType) (b c h s : ℤ) :
    getFilterString f b c h s = specFilterString f b c h s := by
  cases f <;>
    simp [getFilterString, specFilterString, adjustmentsString, baseFilterString,
      String.append_assoc]

/-- Direction argument of `handleZoom`. -/
inductive ZoomDir where
  | zoomIn
  | zoomOut
deriving DecidableEq, Repr

/-- A zoom-changing event: either a `handleZoom` button action (with optional
custom step and the current zoom sensitivity) or a `handleWheel` event
(with the wheel delta and sensitivity). -/
inductive ZoomEvent where
  | zoom (dir : ZoomDir) (customStep : Option ℚ) (sens : ℚ)
  | wheel (deltaY : ℚ) (sens : ℚ)
deriving Repr

/-- The `setZoomScale` updater of `handleZoom` (App.tsx lines 472-479) and
`handleWheel` (lines 481-487): compute the candidate value and clamp it with
`Math.min(Math.max(next, 0.5), 10)`. -/
def applyZoomEvent (prev : ℚ) : ZoomEvent → ℚ
  | .zoom dir customStep sens =>
      let defaultStep : ℚ := 2/10
      let step := customStep.getD (defaultStep * sens)
      let next := match dir with
        | .zoomIn => prev + step
        | .zoomOut => prev - step
      min (max next (5/10)) 10
  | .wheel deltaY sens =>
      let delta := -deltaY * (5/1000) * sens
      min (max (prev + delta) (5/10)) 10

/-- The zoom scale after a sequence of zoom events, starting from the initial
`useState(1)`. -/
def zoomAfter (events : List ZoomEvent) : ℚ :=
  events.foldl applyZoomEvent 1

/-- Every single zoom update lands in [0.5, 10], whatever the previous value. -/
theorem applyZoomEvent_mem_Icc (prev : ℚ) (e : ZoomEvent) :
    5/10 ≤ applyZoomEvent prev e ∧ applyZoomEvent prev e ≤ 10 := by
  cases e <;> dsimp [applyZoomEvent] <;>
    exact ⟨le_min (le_max_right _ _) (by norm_num), min_le_right _ _⟩

/-- Folding zoom events preserves membership in [0.5, 10]. -/
theorem zoom_foldl_mem_Icc (events : List ZoomEvent) :
    ∀ p : ℚ, 5/10 ≤ p → p ≤ 10 →
      5/10 ≤ events.foldl applyZoomEvent p ∧ events.foldl applyZoomEvent p ≤ 10 := by
  induction events with
  | nil => intro p h1 h2; exact ⟨h1, h2⟩
  | cons e rest ih =>
      intro p _ _
      have h := applyZoomEvent_mem_Icc p e
      exact ih (applyZoomEvent p e) h.1 h.2

/-- C4: starting from the initial zoom scale 1, every sequence of zoom
operations — `handleZoom` with any direction, custom step and sensitivity,
and `handleWheel` with any delta — keeps the zoom scale inside [0.5, 10]. -/
theorem zoomScale_bounded (events : List ZoomEvent) :
    5/10 ≤ zoomAfter events ∧ zoomAfter events ≤ 10 :=
  zoom_foldl_mem_Icc events 1 (by norm_num) (by norm_num)

/-- Selection rectangle, values in percentages 0-100 (App.tsx lines 7-13). -/
structure SelectionRect where
  x : ℚ
  y : ℚ
  width : ℚ
  height : ℚ
deriving DecidableEq, Repr

/-- The selection rectangle computed by `handleMouseMove` while drawing a
selection (App.tsx lines 507-520): coordinate-wise min of the anchor
(`selectionStart`) and the current point, with absolute-difference extents. -/
def computeSelection (startP cur : ℚ × ℚ) : SelectionRect :=
  { x := min cur.1 startP.1
  , y := min cur.2 startP.2
  , width := |cur.1 - startP.1|
  , height := |cur.2 - startP.2| }

/-- C5: the drawn selection rectangle is normalized — x and y are the
coordinate-wise minima of the anchor and the current point, width and height
are the absolute differences (hence nonnegative), and exchanging the two
points yields the same rectangle. -/
theorem computeSelection_normalized (s c : ℚ × ℚ) :
    (computeSelection s c).x = min c.1 s.1 ∧
    (computeSelection s c).y = min c.2 s.2 ∧
    (computeSelection s c).width = |c.1 - s.1| ∧
    (computeSelection s c).height = |c.2 - s.2| ∧
    0 ≤ (computeSelection s c).width ∧
    0 ≤ (computeSelection s c).height ∧
    computeSelection s c = computeSelection c s := by
  refine ⟨rfl, rfl, rfl, rfl, abs_nonneg _, abs_nonneg _, ?_⟩
  simp [computeSelection, min_comm, abs_sub_comm]

section Canvas

variable {Color : Type}

/-- The 9-argument `ctx.drawImage(img, sx, sy, sw, sh, dx, dy, dw, dh)` with
the context's current filter `F` (the identity when `ctx.filter` is the
default `"none"`): inside the destination rectangle the canvas receives the
filtered source pixel (the source rectangle mapped affinely onto the
destination rectangle); outside it the canvas is untouched. A canvas is its
pixel function `ℚ → ℚ → Color`. -/
def drawImageRect (F : Color → Color) (img : ℚ → ℚ → Color)
    (sx sy sw sh dx dy dw dh : ℚ) (c : ℚ → ℚ → Color) : ℚ → ℚ → Color :=
  fun px py =>
    if dx ≤ px ∧ px < dx + dw ∧ dy ≤ py ∧ py < dy + dh then
      F (img (sx + (px - dx) * (sw / dw)) (sy + (py - dy) * (sh / dh)))
    else c px py

/-- The canvas drawing of `handleSaveEdits` (App.tsx lines 314-337): a canvas
of the image's dimensions, `ctx.drawImage(img, 0, 0)` unfiltered, then — when
a selection is active — a filtered draw of the selection region with
identical source and destination rectangles, else a filtered full draw.
`blank` is the initial (transparent) canvas color, `F` the composed CSS
filter as a pixel transform. -/
def bakeSaveEdits (blank : Color) (F : Color → Color) (w h : ℚ)
    (img : ℚ → ℚ → Color) (sel : Option SelectionRect) : ℚ → ℚ → Color :=
  let base := drawImageRect id img 0 0 w h 0 0 w h (fun _ _ => blank)
  match sel with
  | some s =>
      let sx := s.x * w / 100
      let sy := s.y * h / 100
      let sw := s.width * w / 100
      let sh := s.height * h / 100
      drawImageRect F img sx sy sw sh sx sy sw sh base
  | none => drawImageRect F img 0 0 w h 0 0 w h base

/-- The canvas drawing of `handleDownload` (App.tsx lines 363-396), identical
composition to `bakeSaveEdits`: unfiltered full draw, then the filtered
selection-region draw (or filtered full draw without a selection). -/
def bakeDownload (blank : Color) (F : Color → Color) (w h : ℚ)
    (img : ℚ → ℚ → Color) (sel : Option SelectionRect) : ℚ → ℚ → Color :=
  let base := drawImageRect id img 0 0 w h 0 0 w h (fun _ _ => blank)
  match sel with
  | some s =>
      let sx := s.x * w / 100
      let sy := s.y * h / 100
      let sw := s.width * w / 100
      let sh := s.height * h / 100
      drawImageRect F img sx sy sw sh sx sy sw sh base
  | none => drawImageRect F img 0 0 w h 0 0 w h base

/-- The unfiltered full-size draw reproduces the image inside the canvas. -/
theorem drawImageRect_full_id (img : ℚ → ℚ → Color) (w h : ℚ)
    (c : ℚ → ℚ → Color) (x y : ℚ)
    (hx0 : 0 ≤ x) (hxw : x < w) (hy0 : 0 ≤ y) (hyh : y < h) :
    drawImageRect id img 0 0 w h 0 0 w h c x y = img x y := by
  have hw : w ≠ 0 := (lt_of_le_of_lt hx0 hxw).ne'
  have hh : h ≠ 0 := (lt_of_le_of_lt hy0 hyh).ne'
  simp only [drawImageRect, zero_add, sub_zero]
  rw [if_pos ⟨hx0, hxw, hy0, hyh⟩]
  rw [div_self hw, div_self hh, mul_one, mul_one]
  rfl

end Canvas

/-- C1: when a local selection is active, both bake-in operations
(`handleSaveEdits` and `handleDownload`) leave every canvas pixel outside the
selection's pixel rectangle equal to the corresponding pixel of the original
image: the full unfiltered draw happens first and the filtered draw is
restricted to the selection region. -/
theorem bake_outside_selection_unchanged {Color : Type}
    (blank : Color) (F : Color → Color) (w h : ℚ) (img : ℚ → ℚ → Color)
    (s : SelectionRect) (x y : ℚ)
    (hx0 : 0 ≤ x) (hxw : x < w) (hy0 : 0 ≤ y) (hyh : y < h)
    (hout : ¬ (s.x * w / 100 ≤ x ∧ x < s.x * w / 100 + s.width * w / 100 ∧
               s.y * h / 100 ≤ y ∧ y < s.y * h / 100 + s.height * h / 100)) :
    bakeSaveEdits blank F w h img (some s) x y = img x y ∧
    bakeDownload blank F w h img (some s) x y = img x y := by
  constructor <;>
  · show drawImageRect F img _ _ _ _ _ _ _ _ _ x y = img x y
    rw [drawImageRect, if_neg hout]
    exact drawImageRect_full_id img w h _ x y hx0 hxw hy0 hyh

/-- Witness for C1 at a concrete image, filter and outside pixel. -/
theorem bake_outside_selection_unchanged_witness :
    bakeSaveEdits (0 : ℚ) (fun c => c + 1) 100 100 (fun x y => x + 2 * y)
        (some ⟨10, 10, 20, 20⟩) 5 5 = 15 ∧
    bakeDownload (0 : ℚ) (fun c => c + 1) 100 100 (fun x y => x + 2 * y)
        (some ⟨10, 10, 20, 20⟩) 5 5 = 15 := by
  have h := bake_outside_selection_unchanged (0 : ℚ) (fun c => c + 1) 100 100
    (fun x y => x + 2 * y) ⟨10, 10, 20, 20⟩ 5 5
    (by norm_num) (by norm_num) (by norm_num) (by norm_num) (by norm_num)
  refine ⟨h.1.trans (by norm_num), h.2.trans (by norm_num)⟩

/-- C2: with an active selection the bake-in of `handleSaveEdits` maps the
percentage selection to pixel coordinates exactly as sx = x·w/100,
sy = y·h/100, sw = width·w/100, sh = height·h/100, and since source and
destination rectangles coincide, every pixel inside that rectangle receives
the filtered original pixel at the same coordinates — the filtered pixels
are written back in place. -/
theorem bake_inside_selection_filtered_in_place {Color : Type}
    (blank : Color) (F : Color → Color) (w h : ℚ) (img : ℚ → ℚ → Color)
    (s : SelectionRect) (x y : ℚ)
    (hin : s.x * w / 100 ≤ x ∧ x < s.x * w / 100 + s.width * w / 100 ∧
           s.y * h / 100 ≤ y ∧ y < s.y * h / 100 + s.height * h / 100) :
    bakeSaveEdits blank F w h img (some s) x y = F (img x y) := by
  obtain ⟨hx1, hx2, hy1, hy2⟩ := hin
  have hsw : s.width * w / 100 ≠ 0 :=
    ((lt_add_iff_pos_right _).mp (lt_of_le_of_lt hx1 hx2)).ne'
  have hsh : s.height * h / 100 ≠ 0 :=
    ((lt_add_iff_pos_right _).mp (lt_of_le_of_lt hy1 hy2)).ne'
  show drawImageRect F img _ _ _ _ _ _ _ _ _ x y = F (img x y)
  rw [drawImageRect, if_pos ⟨hx1, hx2, hy1, hy2⟩, div_self hsw, div_self hsh,
    mul_one, mul_one, add_sub_cancel, add_sub_cancel]

/-- Witness for C2 at a concrete image, filter and inside pixel. -/
theorem bake_inside_selection_filtered_in_place_witness :
    bakeSaveEdits (0 : ℚ) (fun c => c + 1) 100 100 (fun x y => x + 2 * y)
        (some ⟨10, 10, 20, 20⟩) 15 15 = 46 := by
  have h := bake_inside_selection_filtered_in_place (0 : ℚ) (fun c => c + 1) 100 100
    (fun x y => x + 2 * y) ⟨10, 10, 20, 20⟩ 15 15
    ⟨by norm_num, by norm_num, by norm_num, by norm_num⟩
  exact h.trans (by norm_num)

/-- A generated image (types.ts `GeneratedImage`, plus the `caption` field the
app stores on it). -/
structure GeneratedImage where
  id : String
  url : String
  base64 : String
  prompt : String
  caption : String
deriving DecidableEq, Repr

/-- The app status enumeration (types.ts `AppState`). -/
inductive AppStatus where
  | IDLE
  | GENERATING
  | SELECTING
  | EDITING
  | VIEWING
deriving DecidableEq, Repr

/-- The pieces of App.tsx component state that the editing pipeline reads and
writes: each field is one `useState` hook. -/
structure EditorState where
  prompt : String
  status : AppStatus
  images : List GeneratedImage
  selectedImage : Option GeneratedImage
  imageCaption : String
  error : Option String
  selectedFilter : FilterType
  brightness : ℤ
  contrast : ℤ
  hue : ℤ
  saturation : ℤ
  zoomScale : ℚ
  panOffset : ℚ × ℚ
  selection : Option SelectionRect
deriving DecidableEq, Repr

/-- JavaScript `Array.prototype.findIndex`: index of the first element
satisfying the test, `-1` when none does. -/
def jsFindIndex {α : Type} (p : α → Bool) : List α → ℤ
  | [] => -1
  | a :: as =>
      if p a then 0
      else if jsFindIndex p as = -1 then -1 else jsFindIndex p as + 1

/-- The `currentIndex` memo (App.tsx lines 160-163): `-1` when no image is
selected, else the index of the selected image's id in `images`. -/
def currentIndexOf (images : List GeneratedImage) (sel : Option GeneratedImage) : ℤ :=
  match sel with
  | none => -1
  | some si => jsFindIndex (fun img => img.id == si.id) images

/-- `resetEditSliders` (App.tsx lines 285-294): all non-destructive adjustment
state back to its defaults. -/
def resetEditSliders (s : EditorState) : EditorState :=
  { s with
    selectedFilter := FilterType.None
    brightness := 100
    contrast := 100
    hue := 0
    saturation := 100
    zoomScale := 1
    panOffset := (0, 0)
    selection := none }

/-- The `hasPendingEdits` memo (App.tsx lines 147-157): some visual adjustment
differs from its default, or the caption text differs from the selected
image's caption, or a selection is active. -/
def hasPendingEdits (s : EditorState) : Bool :=
  let visualChanges :=
    decide (s.selectedFilter ≠ FilterType.None) || decide (s.brightness ≠ 100) ||
      decide (s.contrast ≠ 100) || decide (s.hue ≠ 0) || decide (s.saturation ≠ 100)
  let captionChanged :=
    match s.selectedImage with
    | none => true
    | some img => decide (img.caption ≠ s.imageCaption)
  visualChanges || captionChanged || decide (s.selection ≠ none)

/-- The state transition of `handleSaveEdits` on its success path (App.tsx
lines 309-361): a 2D context was obtained and the canvas produced `newUrl`
and `newBase64`; the selected image is replaced by the baked output with the
current caption, the image list is updated at the current index, the sliders
reset, and the status returns to VIEWING. -/
def handleSaveEdits (s : EditorState) (newUrl newBase64 : String) : EditorState :=
  match s.selectedImage with
  | none => s
  | some sel =>
      let updatedImage : GeneratedImage :=
        { sel with base64 := newBase64, url := newUrl, caption := s.imageCaption }
      let ci := currentIndexOf s.images s.selectedImage
      let images1 := if ci ≠ -1 then s.images.set ci.toNat updatedImage else s.images
      resetEditSliders
        { s with images := images1, selectedImage := some updatedImage,
                 status := AppStatus.VIEWING }

/-- JavaScript `String.prototype.trim`, modelled structurally on the
character list: strip leading and trailing whitespace. -/
def jsTrim (s : String) : String :=
  ⟨((s.data.dropWhile Char.isWhitespace).reverse.dropWhile Char.isWhitespace).reverse⟩

/-- The url/base64 pair returned by the gemini service operations. -/
structure ServiceImage where
  url : String
  base64 : String
deriving DecidableEq, Repr

/-- `Promise.all` over settled promises: all values in order, or the first
rejection. -/
def promiseAll {ε α : Type} : List (Except ε α) → Except ε (List α)
  | [] => Except.ok []
  | x :: xs =>
      match x with
      | Except.error e => Except.error e
      | Except.ok a =>
          match promiseAll xs with
          | Except.error e => Except.error e
          | Except.ok as => Except.ok (a :: as)

/-- The state transition of `handleGenerate` (App.tsx lines 213-244).
`calls i` is the settled result of the i-th concurrent `generateSingleImage`
call; `now` is `Date.now()`. An empty trimmed prompt returns immediately;
otherwise three calls are launched and awaited with `Promise.all`: on success
the three results become `images` and the status becomes SELECTING, on any
rejection the error message is set and the status returns to IDLE. -/
def handleGenerate (s : EditorState) (calls : ℕ → Except String ServiceImage)
    (now : ℕ) : EditorState :=
  if jsTrim s.prompt = "" then s
  else
    let s1 := resetEditSliders
      { s with error := none, status := AppStatus.GENERATING,
               images := [], selectedImage := none }
    match promiseAll ([0, 1, 2].map calls) with
    | Except.ok results =>
        let newImages : List GeneratedImage :=
          results.enum.map fun p =>
            { id := "img-" ++ toString now ++ "-" ++ toString p.1
            , url := p.2.url
            , base64 := p.2.base64
            , prompt := s.prompt
            , caption := "" }
        { s1 with images := newImages, status := AppStatus.SELECTING }
    | Except.error _ =>
        { s1 with error := some "Ocorreu um erro ao gerar as imagens. Tente novamente."
                , status := AppStatus.IDLE }

/-- Direction argument of `navigateImages`. -/
inductive NavDir where
  | next
  | prev
deriving DecidableEq, Repr

/-- The index arithmetic of `navigateImages` (App.tsx lines 298-302):
increment or decrement, then wrap past the end to 0 and past the start to
`len - 1`. -/
def wrapIndex (len : ℕ) (ci : ℤ) (dir : NavDir) : ℤ :=
  let newIndex : ℤ := match dir with
    | NavDir.next => ci + 1
    | NavDir.prev => ci - 1
  let newIndex := if (len : ℤ) ≤ newIndex then 0 else newIndex
  if newIndex < 0 then (len : ℤ) - 1 else newIndex

/-- `hasNavigation` (App.tsx line 165): more than one image and the selected
image occurs in the list. -/
def hasNavigation (s : EditorState) : Bool :=
  decide (1 < s.images.length) &&
    decide (currentIndexOf s.images s.selectedImage ≠ -1)

/-- The state transition of `navigateImages` (App.tsx lines 296-307): when
navigation is available, select the image at the wrapped neighbour index and
reset the sliders; otherwise do nothing. -/
def navigateImages (s : EditorState) (dir : NavDir) : EditorState :=
  if hasNavigation s then
    let ci := currentIndexOf s.images s.selectedImage
    let ni := wrapIndex s.images.length ci dir
    resetEditSliders { s with selectedImage := s.images.get? ni.toNat }
  else s

/-- C6: after a successful `handleSaveEdits`, the selected image's url and
base64 are the baked canvas output and its caption is the current caption
text, every non-destructive adjustment is back at its default (filter None,
brightness 100, contrast 100, hue 0, saturation 100, zoom 1, pan (0,0),
selection none), the status is VIEWING, and `hasPendingEdits` is false. -/
theorem handleSaveEdits_spec (s : EditorState) (newUrl newBase64 : String)
    (img : GeneratedImage) (hsel : s.selectedImage = some img) :
    (handleSaveEdits s newUrl newBase64).selectedImage =
        some { img with url := newUrl, base64 := newBase64, caption := s.imageCaption }
  ∧ (handleSaveEdits s newUrl newBase64).selectedFilter = FilterType.None
  ∧ (handleSaveEdits s newUrl newBase64).brightness = 100
  ∧ (handleSaveEdits s newUrl newBase64).contrast = 100
  ∧ (handleSaveEdits s newUrl newBase64).hue = 0
  ∧ (handleSaveEdits s newUrl newBase64).saturation = 100
  ∧ (handleSaveEdits s newUrl newBase64).zoomScale = 1
  ∧ (handleSaveEdits s newUrl newBase64).panOffset = (0, 0)
  ∧ (handleSaveEdits s newUrl newBase64).selection = none
  ∧ (handleSaveEdits s newUrl newBase64).imageCaption = s.imageCaption
  ∧ (handleSaveEdits s newUrl newBase64).status = AppStatus.VIEWING
  ∧ hasPendingEdits (handleSaveEdits s newUrl newBase64) = false := by
  simp only [handleSaveEdits, hsel]
  simp [resetEditSliders, hasPendingEdits]

/-- Concrete image used by the save-edits witness. -/
def exImg : GeneratedImage :=
  { id := "a", url := "u0", base64 := "b0", prompt := "p", caption := "cap0" }

/-- Concrete editor state with pending edits used by the save-edits witness. -/
def exSaveState : EditorState :=
  { prompt := "p", status := AppStatus.VIEWING, images := [exImg]
  , selectedImage := some exImg, imageCaption := "hello", error := none
  , selectedFilter := FilterType.Sepia, brightness := 120, contrast := 90
  , hue := 10, saturation := 130, zoomScale := 2, panOffset := (3, 4)
  , selection := some ⟨1, 2, 3, 4⟩ }

/-- Witness for C6 at a concrete state. -/
theorem handleSaveEdits_spec_witness :
    (handleSaveEdits exSaveState "u1" "b1").selectedImage =
        some { id := "a", url := "u1", base64 := "b1", prompt := "p", caption := "hello" }
  ∧ (handleSaveEdits exSaveState "u1" "b1").selectedFilter = FilterType.None
  ∧ hasPendingEdits (handleSaveEdits exSaveState "u1" "b1") = false := by
  have h := handleSaveEdits_spec exSaveState "u1" "b1" exImg rfl
  exact ⟨h.1, h.2.1, h.2.2.2.2.2.2.2.2.2.2.2⟩

/-- C7: for a prompt that is non-empty after trimming, `handleGenerate`
launches three `generateSingleImage` calls and awaits them all: if all three
succeed, the status becomes SELECTING and `images` holds exactly three
entries whose prompt field is the submitted prompt; if any call rejects, the
status returns to IDLE, `images` stays empty, and the error message is set.
For a prompt that is empty after trimming, no state changes. -/
theorem handleGenerate_spec (s : EditorState) (calls : ℕ → Except String ServiceImage)
    (now : ℕ) :
    (jsTrim s.prompt = "" → handleGenerate s calls now = s)
  ∧ (jsTrim s.prompt ≠ "" → ∀ r0 r1 r2 : ServiceImage,
      calls 0 = Except.ok r0 → calls 1 = Except.ok r1 → calls 2 = Except.ok r2 →
        (handleGenerate s calls now).status = AppStatus.SELECTING
      ∧ (handleGenerate s calls now).images.length = 3
      ∧ ∀ img ∈ (handleGenerate s calls now).images, img.prompt = s.prompt)
  ∧ (jsTrim s.prompt ≠ "" → ∀ i : ℕ, i < 3 → ∀ e : String, calls i = Except.error e →
        (handleGenerate s calls now).status = AppStatus.IDLE
      ∧ (handleGenerate s calls now).images = []
      ∧ (handleGenerate s calls now).error =
          some "Ocorreu um erro ao gerar as imagens. Tente novamente.") := by
  refine ⟨fun h => by simp [handleGenerate, h], ?_, ?_⟩
  · intro h r0 r1 r2 h0 h1 h2
    simp [handleGenerate, h, h0, h1, h2, promiseAll, List.enum]
  · intro h i hi e he
    interval_cases i
    · simp [handleGenerate, h, he, promiseAll, resetEditSliders]
    · rcases h0 : calls 0 with e0 | v0 <;>
        simp [handleGenerate, h, h0, he, promiseAll, resetEditSliders]
    · rcases h0 : calls 0 with e0 | v0 <;>
        rcases h1 : calls 1 with e1 | v1 <;>
        simp [handleGenerate, h, h0, h1, he, promiseAll, resetEditSliders]

/-- Concrete editor state with a blank prompt, for the generate witness. -/
def exGenStateEmpty : EditorState :=
  { prompt := "   ", status := AppStatus.IDLE, images := [], selectedImage := none
  , imageCaption := "", error := none, selectedFilter := FilterType.None
  , brightness := 100, contrast := 100, hue := 0, saturation := 100
  , zoomScale := 1, panOffset := (0, 0), selection := none }

/-- Concrete editor state with a non-blank prompt, for the generate witness. -/
def exGenState : EditorState :=
  { exGenStateEmpty with prompt := "a cat" }

/-- Three successful service calls, for the generate witness. -/
def exCallsOk : ℕ → Except String ServiceImage :=
  fun _ => Except.ok { url := "u", base64 := "b" }

/-- Service calls whose second call rejects, for the generate witness. -/
def exCallsErr : ℕ → Except String ServiceImage :=
  fun i => if i = 1 then Except.error "boom" else Except.ok { url := "u", base64 := "b" }

/-- Witness for C7 at concrete states: blank prompt, all-success, and
one-rejection runs. -/
theorem handleGenerate_spec_witness :
    handleGenerate exGenStateEmpty exCallsOk 7 = exGenStateEmpty
  ∧ (handleGenerate exGenState exCallsOk 7).status = AppStatus.SELECTING
  ∧ (handleGenerate exGenState exCallsOk 7).images.length = 3
  ∧ (handleGenerate exGenState exCallsErr 7).status = AppStatus.IDLE
  ∧ (handleGenerate exGenState exCallsErr 7).images = [] := by
  have h1 := (handleGenerate_spec exGenStateEmpty exCallsOk 7).1 (by decide)
  have h2 := (handleGenerate_spec exGenState exCallsOk 7).2.1 (by decide)
    { url := "u", base64 := "b" } { url := "u", base64 := "b" }
    { url := "u", base64 := "b" } rfl rfl rfl
  have h3 := (handleGenerate_spec exGenState exCallsErr 7).2.2 (by decide)
    1 (by omega) "boom" rfl
  exact ⟨h1, h2.1, h2.2.1, h3.1, h3.2.1⟩

/-- A JS `findIndex` result other than -1 is a valid index into the array. -/
theorem jsFindIndex_bounds {α : Type} (p : α → Bool) :
    ∀ l : List α, jsFindIndex p l ≠ -1 →
      0 ≤ jsFindIndex p l ∧ jsFindIndex p l < l.length := by
  intro l
  induction l with
  | nil => intro h; simp [jsFindIndex] at h
  | cons a as ih =>
      intro h
      by_cases hpa : p a
      · simp [jsFindIndex, hpa]
      · by_cases hr : jsFindIndex p as = -1
        · simp [jsFindIndex, hpa, hr] at h
        · have hb := ih hr
          simp only [jsFindIndex, hpa, if_false, hr, if_neg hr, List.length_cons]
          push_cast
          omega

/-- C9: when navigation is available, `navigateImages` moves to the wrapped
neighbour index — from the last index, 'next' wraps to 0; from index 0,
'prev' wraps to the last index — and the new index always lies in
[0, images.length), so the indexed image exists and becomes the selected
image; when navigation is unavailable, the state is unchanged. -/
theorem navigateImages_spec (s : EditorState) (dir : NavDir) :
    (hasNavigation s = false → navigateImages s dir = s)
  ∧ (hasNavigation s = true →
      0 ≤ wrapIndex s.images.length (currentIndexOf s.images s.selectedImage) dir
    ∧ wrapIndex s.images.length (currentIndexOf s.images s.selectedImage) dir
        < s.images.length
    ∧ (s.images.get? (wrapIndex s.images.length
        (currentIndexOf s.images s.selectedImage) dir).toNat).isSome = true
    ∧ (navigateImages s dir).selectedImage =
        s.images.get? (wrapIndex s.images.length
          (currentIndexOf s.images s.selectedImage) dir).toNat
    ∧ (dir = NavDir.next →
        currentIndexOf s.images s.selectedImage = (s.images.length : ℤ) - 1 →
        wrapIndex s.images.length (currentIndexOf s.images s.selectedImage) dir = 0)
    ∧ (dir = NavDir.prev →
        currentIndexOf s.images s.selectedImage = 0 →
        wrapIndex s.images.length (currentIndexOf s.images s.selectedImage) dir =
          (s.images.length : ℤ) - 1)) := by
  constructor
  · intro h; simp [navigateImages, h]
  · intro h
    have hh : 1 < s.images.length ∧ currentIndexOf s.images s.selectedImage ≠ -1 := by
      simpa [hasNavigation] using h
    obtain ⟨hl, hci⟩ := hh
    have hcb : 0 ≤ currentIndexOf s.images s.selectedImage ∧
        currentIndexOf s.images s.selectedImage < s.images.length := by
      rcases hsel : s.selectedImage with _ | si
      · rw [hsel] at hci; simp [currentIndexOf] at hci
      · rw [hsel] at hci
        simp only [currentIndexOf] at hci ⊢
        exact jsFindIndex_bounds _ s.images hci
    have hnb : 0 ≤ wrapIndex s.images.length (currentIndexOf s.images s.selectedImage) dir ∧
        wrapIndex s.images.length (currentIndexOf s.images s.selectedImage) dir
          < s.images.length := by
      cases dir <;> simp only [wrapIndex] <;> split_ifs <;> omega
    have hlt : (wrapIndex s.images.length
        (currentIndexOf s.images s.selectedImage) dir).toNat < s.images.length := by
      omega
    refine ⟨hnb.1, hnb.2, ?_, ?_, ?_, ?_⟩
    · rw [List.get?_eq_get hlt]; rfl
    · simp [navigateImages, h, resetEditSliders]
    · intro hd hlast
      subst hd
      simp only [wrapIndex, hlast]
      split_ifs <;> omega
    · intro hd hzero
      subst hd
      simp only [wrapIndex, hzero]
      split_ifs <;> omega

/-- Three concrete images, for the navigation witness. -/
def exImgA : GeneratedImage := { id := "ia", url := "ua", base64 := "ba", prompt := "p", caption := "" }

/-- Second concrete image, for the navigation witness. -/
def exImgB : GeneratedImage := { id := "ib", url := "ub", base64 := "bb", prompt := "p", caption := "" }

/-- Third concrete image, for the navigation witness. -/
def exImgC : GeneratedImage := { id := "ic", url := "uc", base64 := "bc", prompt := "p", caption := "" }

/-- A state with three images and the last one selected, for the navigation
witness. -/
def exNavState : EditorState :=
  { exGenStateEmpty with images := [exImgA, exImgB, exImgC], selectedImage := some exImgC }

/-- A single-image state where navigation is unavailable, for the navigation
witness. -/
def exNoNavState : EditorState :=
  { exGenStateEmpty with images := [exImgA], selectedImage := some exImgA }

/-- Witness for C9: navigation from the last of three images wraps to index
0, 'prev' from index 0 wraps to the last index, and a single-image state is
left unchanged. -/
theorem navigateImages_spec_witness :
    navigateImages exNoNavState NavDir.next = exNoNavState
  ∧ wrapIndex exNavState.images.length
      (currentIndexOf exNavState.images exNavState.selectedImage) NavDir.next = 0
  ∧ (navigateImages exNavState NavDir.next).selectedImage =
      exNavState.images.get? (wrapIndex exNavState.images.length
        (currentIndexOf exNavState.images exNavState.selectedImage) NavDir.next).toNat
  ∧ wrapIndex exNavState.images.length (0 : ℤ) NavDir.prev = 2 := by
  have h0 := (navigateImages_spec exNoNavState NavDir.next).1 (by decide)
  have h := (navigateImages_spec exNavState NavDir.next).2 (by decide)
  have hprev := (navigateImages_spec
    { exNavState with selectedImage := some exImgA } NavDir.prev).2 (by decide)
  refine ⟨h0, h.2.2.2.2.1 rfl (by decide), h.2.2.2.1, ?_⟩
  have := hprev.2.2.2.2.2 rfl (by decide)
  simpa using this

/-- A response part; `inlineData` holds the base64 payload when the part
carries image data. -/
structure Part where
  inlineData : Option String
deriving DecidableEq, Repr

/-- A candidate's content: its list of parts. -/
structure Content where
  parts : List Part
deriving DecidableEq, Repr

/-- A response candidate. -/
structure Candidate where
  content : Content
deriving DecidableEq, Repr

/-- A generateContent response: its list of candidates. -/
structure GenResponse where
  candidates : List Candidate
deriving DecidableEq, Repr

/-- `response.candidates?.[0]?.content?.parts || []`: the first candidate's
parts, or the empty list. -/
def firstCandidateParts (r : GenResponse) : List Part :=
  match r.candidates with
  | [] => []
  | c :: _ => c.content.parts

/-- The `for (const part of parts) if (part.inlineData) return ...` loop
shared by the three service operations: the payload of the first part that
carries `inlineData`, if any. -/
def extractInlineData : List Part → Option String
  | [] => none
  | p :: ps =>
      match p.inlineData with
      | some d => some d
      | none => extractInlineData ps

/-- `generateSingleImage` (geminiService lines 80-91), from the response on:
the first inlineData payload paired with its data URL, or a rejection. -/
def generateSingleImage (r : GenResponse) : Except String ServiceImage :=
  match extractInlineData (firstCandidateParts r) with
  | some b => Except.ok { url := "data:image/png;base64," ++ b, base64 := b }
  | none => Except.error "Nenhuma imagem foi gerada pelo modelo."

/-- `editImage` (geminiService lines 134-145), from the response on. -/
def editImage (r : GenResponse) : Except String ServiceImage :=
  match extractInlineData (firstCandidateParts r) with
  | some b => Except.ok { url := "data:image/png;base64," ++ b, base64 := b }
  | none =>
      Except.error "Não foi possível processar a edição complexa. Tente uma instrução mais específica."

/-- `resizeImage` (geminiService lines 179-190), from the response on. -/
def resizeImage (r : GenResponse) : Except String ServiceImage :=
  match extractInlineData (firstCandidateParts r) with
  | some b => Except.ok { url := "data:image/png;base64," ++ b, base64 := b }
  | none => Except.error "Não foi possível redimensionar a imagem."

/-- The extraction loop yields nothing exactly when no part carries
inlineData. -/
theorem extractInlineData_eq_none_iff (ps : List Part) :
    extractInlineData ps = none ↔ ∀ p ∈ ps, p.inlineData = none := by
  induction ps with
  | nil => simp [extractInlineData]
  | cons p ps ih =>
      rcases hp : p.inlineData with _ | d
      · simp [extractInlineData, hp, ih]
      · simp [extractInlineData, hp]

/-- The extraction loop returns the payload of the first part carrying
inlineData. -/
theorem extractInlineData_first (pre : List Part) (p : Part) (suf : List Part)
    (d : String) (hpre : ∀ q ∈ pre, q.inlineData = none)
    (hp : p.inlineData = some d) :
    extractInlineData (pre ++ p :: suf) = some d := by
  induction pre with
  | nil => simp [extractInlineData, hp]
  | cons q qs ih =>
      have hq : q.inlineData = none := hpre q (by simp)
      simp only [List.cons_append, extractInlineData, hq]
      exact ih fun x hx => hpre x (by simp [hx])

/-- C8: each of `generateSingleImage`, `editImage` and `resizeImage` returns
the base64 payload of the first part of the first candidate's content that
carries inlineData, paired with `"data:image/png;base64,"` prepended to that
payload, and rejects exactly when no part of the first candidate's content
carries inlineData. -/
theorem serviceOps_first_inlineData (r : GenResponse) :
    (∀ pre p suf d, firstCandidateParts r = pre ++ p :: suf →
        (∀ q ∈ pre, q.inlineData = none) → p.inlineData = some d →
          generateSingleImage r =
            Except.ok { url := "data:image/png;base64," ++ d, base64 := d }
        ∧ editImage r =
            Except.ok { url := "data:image/png;base64," ++ d, base64 := d }
        ∧ resizeImage r =
            Except.ok { url := "data:image/png;base64," ++ d, base64 := d })
  ∧ ((∃ e, generateSingleImage r = Except.error e) ↔
        ∀ q ∈ firstCandidateParts r, q.inlineData = none)
  ∧ ((∃ e, editImage r = Except.error e) ↔
        ∀ q ∈ firstCandidateParts r, q.inlineData = none)
  ∧ ((∃ e, resizeImage r = Except.error e) ↔
        ∀ q ∈ firstCandidateParts r, q.inlineData = none) := by
  refine ⟨?_, ?_, ?_, ?_⟩
  · intro pre p suf d heq hpre hp
    have hx : extractInlineData (firstCandidateParts r) = some d := by
      rw [heq]; exact extractInlineData_first pre p suf d hpre hp
    exact ⟨by simp [generateSingleImage, hx], by simp [editImage, hx],
      by simp [resizeImage, hx]⟩
  · constructor
    · rintro ⟨e, he⟩
      rcases hx : extractInlineData (firstCandidateParts r) with _ | d
      · exact (extractInlineData_eq_none_iff _).mp hx
      · simp [generateSingleImage, hx] at he
    · intro hall
      have hx := (extractInlineData_eq_none_iff _).mpr hall
      exact ⟨"Nenhuma imagem foi gerada pelo modelo.", by simp [generateSingleImage, hx]⟩
  · constructor
    · rintro ⟨e, he⟩
      rcases hx : extractInlineData (firstCandidateParts r) with _ | d
      · exact (extractInlineData_eq_none_iff _).mp hx
      · simp [editImage, hx] at he
    · intro hall
      have hx := (extractInlineData_eq_none_iff _).mpr hall
      exact ⟨"Não foi possível processar a edição complexa. Tente uma instrução mais específica.",
        by simp [editImage, hx]⟩
  · constructor
    · rintro ⟨e, he⟩
      rcases hx : extractInlineData (firstCandidateParts r) with _ | d
      · exact (extractInlineData_eq_none_iff _).mp hx
      · simp [resizeImage, hx] at he
    · intro hall
      have hx := (extractInlineData_eq_none_iff _).mpr hall
      exact ⟨"Não foi possível redimensionar a imagem.", by simp [resizeImage, hx]⟩

/-- A concrete response whose second part carries the payload, for the
service-extraction witness. -/
def exResp : GenResponse :=
  { candidates := [{ content := { parts := [⟨none⟩, ⟨some "abc"⟩, ⟨none⟩] } }] }

/-- Witness for C8 at a concrete response: the second part is the first one
carrying inlineData and all three operations return its payload. -/
theorem serviceOps_first_inlineData_witness :
    generateSingleImage exResp =
      Except.ok { url := "data:image/png;base64," ++ "abc", base64 := "abc" }
  ∧ editImage exResp =
      Except.ok { url := "data:image/png;base64," ++ "abc", base64 := "abc" }
  ∧ resizeImage exResp =
      Except.ok { url := "data:image/png;base64," ++ "abc", base64 := "abc" } := by
  have h := (serviceOps_first_inlineData exResp).1
    [⟨none⟩] ⟨some "abc"⟩ [⟨none⟩] "abc" rfl (by decide) rfl
  exact h

/-- `+(prev + step).toFixed(1)`: round to the nearest tenth (ties up). -/
def roundTo1 (x : ℚ) : ℚ :=
  (⌊x * 10 + 1/2⌋ : ℚ) / 10

/-- One tick of the simulated progress interval (LoadingOverlay lines 35-42):
once at 98 stay at 98; otherwise add `max(0.1, (100 - prev) / 20)` and round
to one decimal place. -/
def progressTick (prev : ℚ) : ℚ :=
  if prev ≥ 98 then 98
  else
    let step := max (1/10) ((100 - prev) / 20)
    roundTo1 (prev + step)

/-- The progress value after n ticks, from `useState(0)`. -/
def progressSeq : ℕ → ℚ
  | 0 => 0
  | n + 1 => progressTick (progressSeq n)

/-- One tick from a one-decimal value k/10 with k ≤ 980 stays on the
one-decimal grid, does not decrease, and stays at or below 980/10. -/
theorem progressTick_step (k : ℕ) (hk : k ≤ 980) :
    ∃ k' : ℕ, k ≤ k' ∧ k' ≤ 980 ∧ progressTick ((k : ℚ) / 10) = (k' : ℚ) / 10 := by
  by_cases h98 : 980 ≤ k
  · have hke : k = 980 := le_antisymm hk h98
    subst hke
    refine ⟨980, le_refl _, le_refl _, ?_⟩
    rw [progressTick, if_pos (by norm_num)]
    norm_num
  · have hk979 : (k : ℚ) ≤ 979 := by exact_mod_cast Nat.le_of_lt_succ (by omega)
    have hprev : ¬ ((k : ℚ) / 10 ≥ 98) := by
      rw [not_le, div_lt_iff₀ (by norm_num)]
      linarith
    have hmax : (1 : ℚ)/10 ≤ (100 - (k : ℚ)/10) / 20 := by
      rw [div_le_div_iff₀ (by norm_num) (by norm_num)]
      linarith
    have hx : ((k : ℚ)/10 + (100 - (k : ℚ)/10)/20) * 10 + 1/2 =
        (19 * (k : ℚ) + 1010) / 20 := by
      field_simp
      ring
    have hm0 : (0 : ℤ) ≤ ⌊(19 * (k : ℚ) + 1010) / 20⌋ := by
      apply Int.le_floor.mpr
      positivity
    have hmk : (k : ℤ) ≤ ⌊(19 * (k : ℚ) + 1010) / 20⌋ := by
      apply Int.le_floor.mpr
      rw [le_div_iff₀ (by norm_num)]
      push_cast
      linarith [Nat.cast_nonneg (α := ℚ) k]
    have hm981 : ⌊(19 * (k : ℚ) + 1010) / 20⌋ < 981 := by
      apply Int.floor_lt.mpr
      rw [div_lt_iff₀ (by norm_num)]
      push_cast
      linarith
    refine ⟨(⌊(19 * (k : ℚ) + 1010) / 20⌋).toNat, by omega, by omega, ?_⟩
    rw [progressTick, if_neg hprev]
    show roundTo1 ((k : ℚ)/10 + max (1/10) ((100 - (k : ℚ)/10)/20)) = _
    have hc : ((⌊(19 * (k : ℚ) + 1010) / 20⌋.toNat : ℤ) : ℚ) =
        ((⌊(19 * (k : ℚ) + 1010) / 20⌋ : ℤ) : ℚ) :=
      congrArg _ (Int.toNat_of_nonneg hm0)
    rw [Int.cast_natCast] at hc
    rw [max_eq_right hmax, roundTo1, hx, hc]

/-- Every progress value is a one-decimal value k/10 with k ≤ 980. -/
theorem progressSeq_grid (n : ℕ) :
    ∃ k : ℕ, progressSeq n = (k : ℚ) / 10 ∧ k ≤ 980 := by
  induction n with
  | zero => exact ⟨0, by norm_num [progressSeq], by norm_num⟩
  | succ n ih =>
      obtain ⟨k, hk, hk980⟩ := ih
      obtain ⟨k', _, hk'980, hstep⟩ := progressTick_step k hk980
      exact ⟨k', by rw [progressSeq, hk, hstep], hk'980⟩

/-- C10: the simulated progress of the LoadingOverlay, started at 0 and
updated each tick by `max(0.1, (100 - prev) / 20)` rounded to one decimal
place with an early return of 98 once prev ≥ 98, never exceeds 98 and never
decreases over the whole tick sequence. -/
theorem loadingProgress_monotone_bounded (n : ℕ) :
    progressSeq n ≤ 98 ∧ progressSeq n ≤ progressSeq (n + 1) := by
  obtain ⟨k, hk, hk980⟩ := progressSeq_grid n
  obtain ⟨k', hkk', hk'980, hstep⟩ := progressTick_step k hk980
  constructor
  · rw [hk, div_le_iff₀ (by norm_num)]
    calc (k : ℚ) ≤ 980 := by exact_mod_cast hk980
      _ = 98 * 10 := by norm_num
  · rw [progressSeq, hk, hstep]
    apply div_le_div_of_nonneg_right ?_ (by norm_num)
    exact_mod_cast hkk'

end ImagineAI
